import Mathlib

/-!
Shallow embedding of `src/codegen/generators/pou_generator.rs` (the POU code
generator of a structured-text compiler) and proofs about its behaviour.

The embedding models the data the generator consumes (the symbol `Index`,
the `LlvmTypedIndex` of already-generated target artifacts) and translates
each generator function into an executable Lean definition.  LLVM builder
calls are modelled as an emitted instruction trace (`Instr`); fallible Rust
code returning `Result<_, Diagnostic>` becomes `Except Diagnostic _`.
The expression generator (`ExpressionCodeGenerator::generate_expression`)
is an external capability of this core and is passed in as a function
`Statement → Except Diagnostic Value`.
-/

set_option autoImplicit false

namespace PouGen

/-- Source location attached to index entries (`SourceRange` in the source);
`undefined` models `SourceRange::undefined()`. -/
inductive SourceRange where
  | undefined : SourceRange
  | range (startOffset endOffset : Nat) : SourceRange
deriving DecidableEq, Repr

/-- The kind of a variable index entry
(`VariableType` in the source index: Input/Output/InOut/Local/Temp/Return/Global). -/
inductive VariableType where
  | input | output | inOut | localVar | temp | ret | globalVar
deriving DecidableEq, Repr

/-- Category of an LLVM `BasicTypeEnum` value, as queried by the generator
(`is_int_type`, `is_float_type`, `is_array_type`, `is_pointer_type`,
`is_struct_type`; `vectorTy` is the remaining LLVM basic-type category that
falls through to the unsupported-return-type branch). -/
inductive TypeKind where
  | intTy | floatTy | arrayTy | pointerTy | structTy | vectorTy
deriving DecidableEq, Repr

/-- An LLVM type associated to a source type name in the typed index.
`sizeOf` models `BasicTypeEnum::size_of()`, which returns `None` for
unsized types. -/
structure AssociatedType where
  kind : TypeKind
  sizeOf : Option Nat
deriving DecidableEq, Repr

/-- Effective type information of a source type
(`DataTypeInformation` queries used by the generator). -/
structure TypeInformation where
  is_struct : Bool
  is_array : Bool
  is_string : Bool
  is_variadic : Bool
deriving DecidableEq, Repr

/-- An AST statement/expression node; opaque to this core, which only hands
it to the expression generator. -/
structure Statement where
  id : Nat
deriving DecidableEq, Repr

/-- A pointer value produced by the local-binding phase: either a fresh
stack slot (`Llvm::create_local_variable`, an alloca) or a field address
into an instance-struct parameter (`build_struct_gep`).  `elemTy` is the
LLVM pointee type of the pointer. -/
inductive PtrValue where
  | alloca (name : String) (elemTy : AssociatedType)
  | structGep (argIndex : Nat) (fieldIndex : Nat) (name : String) (elemTy : AssociatedType)
deriving DecidableEq, Repr

/-- The LLVM pointee type of a pointer value
(`PointerValue::get_type().get_element_type()`). -/
def PtrValue.elementType : PtrValue → AssociatedType
  | .alloca _ ty => ty
  | .structGep _ _ _ ty => ty

/-- An LLVM value, tagged with its provenance inside this core:
the result of the delegated expression generator, a type's canonical
default (`get_default_for`), the n-th incoming function argument
(`get_nth_param`), or the result of a load. -/
inductive Value where
  | exprResult (stmt : Statement)
  | defaultFor (ty : AssociatedType)
  | param (n : Nat)
  | loaded (ptr : PtrValue) (name : String)
deriving DecidableEq, Repr

/-- A global value in the typed index (`GlobalValue` in LLVM terms):
its module-level name, its reported alignment (`get_alignment`), and,
for globals created by this core, the stored type/value/constness. -/
structure GlobalValue where
  name : String
  alignment : Nat
  varType : Option AssociatedType
  initialValue : Option Value
  isConstant : Bool
deriving DecidableEq, Repr

/-- Diagnostics produced by this core, one constructor per `Diagnostic`
constructor actually used by the generator; `internalAbort` models the
`expect`-style unconditional aborts on impossible states. -/
inductive Diagnostic where
  | codegenError (message : String) (location : SourceRange)
  | cannotGenerateInitializer (qualifiedName : String) (location : SourceRange)
  | missingFunction (location : SourceRange)
  | missingAssociatedType (typeName : String)
  | internalAbort (message : String)
deriving DecidableEq, Repr

/-- An instruction emitted through the LLVM builder. -/
inductive Instr where
  | allocaI (name : String) (ty : AssociatedType)
  | storeI (dest : PtrValue) (value : Value)
  | memcpyI (dest : PtrValue) (destAlign : Nat) (srcGlobal : String) (srcAlign : Nat) (size : Nat)
  | memsetI (dest : PtrValue) (align : Nat) (byteValue : Nat) (size : Nat)
  | loadI (src : PtrValue) (name : String)
  | retI (value : Option Value)
  | gepI (argIndex : Nat) (fieldIndex : Nat) (name : String)
deriving DecidableEq, Repr

/-- A parameter of a generated function declaration: functions take
flattened by-value parameters, stateful POUs take pointers to their
instance struct (recorded here by the struct's source name). -/
inductive ParamType where
  | byValue (ty : AssociatedType)
  | pointerTo (structName : String)
deriving DecidableEq, Repr

/-- A generated LLVM function type (`create_llvm_function_type`). -/
structure FunctionType where
  params : List ParamType
  variadic : Bool
  returnType : Option AssociatedType
deriving DecidableEq, Repr

/-- A generated function declaration (`FunctionValue` added to the module
by `module.add_function`). -/
structure FunctionDecl where
  name : String
  paramTypes : List ParamType
  returnType : Option AssociatedType
  variadic : Bool
deriving DecidableEq, Repr

/-- The n-th incoming argument of a generated function
(`FunctionValue::get_nth_param`). -/
def FunctionDecl.getNthParam (f : FunctionDecl) (n : Nat) : Option Value :=
  if n < f.paramTypes.length then some (Value.param n) else none

/-- Implementation kind of an implementation index entry
(`ImplementationType` in the source). -/
inductive ImplementationType where
  | program | function | functionBlock | action | method
deriving DecidableEq, Repr

/-- AST-level POU kind (`PouType`); `method` carries no payload here since
the generator only matches on the variant. -/
inductive PouType where
  | program | function | functionBlock | action | method
deriving DecidableEq, Repr

/-- A variable entry of the symbol index (`VariableIndexEntry`). -/
structure VariableIndexEntry where
  name : String
  qualifiedName : String
  typeName : String
  variableType : VariableType
  initialValue : Option Nat
  sourceLocation : SourceRange
deriving DecidableEq, Repr

/-- Modelled from the spec: `VariableIndexEntry::is_parameter` — a member
marked as a parameter is one of kind Input/Output/InOut (spec section 4.3:
"Input/Output/InOut — i.e., excluding Local/Temp/Return"). -/
def VariableIndexEntry.is_parameter (v : VariableIndexEntry) : Bool :=
  match v.variableType with
  | .input | .output | .inOut => true
  | _ => false

/-- Kind test for Local members. -/
def VariableIndexEntry.is_local (v : VariableIndexEntry) : Bool :=
  v.variableType = VariableType.localVar

/-- Kind test for Temp members. -/
def VariableIndexEntry.is_temp (v : VariableIndexEntry) : Bool :=
  v.variableType = VariableType.temp

/-- Kind test for Return members. -/
def VariableIndexEntry.is_return (v : VariableIndexEntry) : Bool :=
  v.variableType = VariableType.ret

/-- A POU metadata entry of the symbol index (name and generic flag). -/
structure PouIndexEntry where
  name : String
  isGeneric : Bool
deriving DecidableEq, Repr

/-- An implementation entry of the symbol index
(`ImplementationIndexEntry`). -/
structure ImplementationIndexEntry where
  callName : String
  typeName : String
  implementationType : ImplementationType
  associatedClassName : Option String
deriving DecidableEq, Repr

/-- The symbol index (read-only during this phase): implementation entries
keyed by name, POU metadata, container members per container name, the
constant-expression table (resolvable constant ids to their folded
statements), and effective type information per type name. -/
structure Index where
  implementations : List (String × ImplementationIndexEntry)
  pous : List PouIndexEntry
  containerMembers : List (String × List VariableIndexEntry)
  constStatements : List (Nat × Statement)
  typeInfos : List (String × TypeInformation)

/-- Modelled from the spec: `Index::find_pou` — look up POU metadata by
name (spec section 3, POU metadata with generic flag). -/
def Index.findPou (idx : Index) (name : String) : Option PouIndexEntry :=
  idx.pous.find? (fun p => p.name = name)

/-- Modelled from the spec: `Index::get_container_members` — all member
variable entries of a container, empty when the container is unknown. -/
def Index.getContainerMembers (idx : Index) (name : String) : List VariableIndexEntry :=
  (idx.containerMembers.lookup name).getD []

/-- Modelled from the spec: `ConstExpressions::maybe_get_constant_statement`
— resolve an optional initial-value reference to its constant statement if
the constant-expression table can fold it (spec section 3,
constant-expression table). -/
def Index.maybeGetConstantStatement (idx : Index) (initialValue : Option Nat) : Option Statement :=
  match initialValue with
  | none => none
  | some cid => idx.constStatements.lookup cid

/-- Modelled from the spec: `Index::get_effective_type_by_name(..)
.get_type_information()` — effective type information of a type name
(spec section 3, Resolved-Type Table: is-struct / is-array / is-string /
is-variadic). An unknown name yields all-false information. -/
def Index.getEffectiveTypeInformation (idx : Index) (name : String) : TypeInformation :=
  (idx.typeInfos.lookup name).getD ⟨false, false, false, false⟩

/-- Modelled from the spec: `Index::find_effective_type_info` — optional
effective type information of a type name. -/
def Index.findEffectiveTypeInfo (idx : Index) (name : String) : Option TypeInformation :=
  idx.typeInfos.lookup name

/-- Modelled from the spec: `Index::find_return_variable` — the unique
Return-kind member of a container, if declared (spec section 3 invariant:
exactly zero or one Return-kind entry per callable). -/
def Index.findReturnVariable (idx : Index) (typeName : String) : Option VariableIndexEntry :=
  (idx.getContainerMembers typeName).find? (fun v => v.is_return)

/-- Modelled from the spec: `Index::find_return_type(..).get_name()` — the
type name of the declared return variable, if any. -/
def Index.findReturnType (idx : Index) (typeName : String) : Option String :=
  (idx.findReturnVariable typeName).map (fun v => v.typeName)

/-- Modelled from the spec: `index::get_initializer_name` — the
deterministic derived initializer-global name for a qualified variable or
type name (spec section 6: "an initializer global is named by appending a
fixed suffix/prefix convention to a variable's or type's qualified name"). -/
def get_initializer_name (qualifiedName : String) : String :=
  qualifiedName ++ "__init"

/-- Modelled from the spec: `Pou::calc_return_name` — the derived name of a
function's return slot (spec section 6: a function's return slot is named
"<call-name>_ret"). -/
def Pou.calcReturnName (pouName : String) : String :=
  pouName ++ "_ret"

/-- The typed index of already-generated target artifacts
(`LlvmTypedIndex`): hoisted globals, associated types per source type name,
associated POU instance-struct types, and constant-propagated initial
values per qualified variable name. -/
structure LlvmTypedIndex where
  globalValues : List (String × GlobalValue)
  associatedTypes : List (String × AssociatedType)
  associatedPouTypes : List (String × AssociatedType)
  initialValues : List (String × Value)

/-- Modelled from the spec: `LlvmTypedIndex::find_global_value`. -/
def LlvmTypedIndex.findGlobalValue (ti : LlvmTypedIndex) (name : String) : Option GlobalValue :=
  ti.globalValues.lookup name

/-- Modelled from the spec: `LlvmTypedIndex::find_associated_type`. -/
def LlvmTypedIndex.findAssociatedType (ti : LlvmTypedIndex) (name : String) : Option AssociatedType :=
  ti.associatedTypes.lookup name

/-- Modelled from the spec: `LlvmTypedIndex::get_associated_type` — like
`find_associated_type` but failing with the "missing associated type"
condition (spec section 7). -/
def LlvmTypedIndex.getAssociatedType (ti : LlvmTypedIndex) (name : String) :
    Except Diagnostic AssociatedType :=
  match ti.associatedTypes.lookup name with
  | some t => .ok t
  | none => .error (.missingAssociatedType name)

/-- Modelled from the spec: `LlvmTypedIndex::get_associated_pou_type` —
the instance-struct type associated to a POU name. -/
def LlvmTypedIndex.getAssociatedPouType (ti : LlvmTypedIndex) (name : String) :
    Except Diagnostic AssociatedType :=
  match ti.associatedPouTypes.lookup name with
  | some t => .ok t
  | none => .error (.missingAssociatedType name)

/-- Modelled from the spec: `LlvmTypedIndex::find_associated_initial_value`
— a previously constant-propagated initial value for a qualified name
(spec section 4.2 fast path). -/
def LlvmTypedIndex.findAssociatedInitialValue (ti : LlvmTypedIndex) (qualifiedName : String) :
    Option Value :=
  ti.initialValues.lookup qualifiedName

/-- The per-callable child scope of the typed index, holding the loaded
local-variable bindings created by the local-binding phase, keyed by
qualified name. -/
structure LlvmLocalIndex where
  loadedLocals : List (String × PtrValue)

/-- Modelled from the spec:
`LlvmTypedIndex::find_loaded_associated_variable_value` — look up a local
binding by qualified variable name in the per-callable child scope. -/
def LlvmLocalIndex.findLoadedAssociatedVariableValue (li : LlvmLocalIndex)
    (qualifiedName : String) : Option PtrValue :=
  li.loadedLocals.lookup qualifiedName

/-- Modelled from the spec: the key under which
`associate_loaded_local_variable(type_name, name, ..)` records a binding,
matching the qualified-name convention "container.variable" used for
lookups. -/
def localKey (typeName name : String) : String :=
  typeName ++ "." ++ name

/-- The linking context of a callable's body generation
(`FunctionContext::linking_context`): its owning type name and call name. -/
structure FunctionContext where
  typeName : String
  callName : String

/-! ## Parameter/ABI builder (`create_parameters_for_implementation`) -/

/-- The Method-kind prefix of `create_parameters_for_implementation`
(source lines 187-200): a pointer parameter to the enclosing class's
instance struct, aborting when the method has no associated class name
(`expect`) or when the associated type is not a struct
(`into_struct_type`); empty for every non-Method kind. -/
def methodClassParams (llvmIndex : LlvmTypedIndex) (impl : ImplementationIndexEntry) :
    Except Diagnostic (List ParamType) :=
  if impl.implementationType = ImplementationType.method then
    match impl.associatedClassName with
    | none => .error (.internalAbort "Method needs to have a class-name")
    | some className =>
      match llvmIndex.getAssociatedType className with
      | .error e => .error e
      | .ok classType =>
        if classType.kind = TypeKind.structTy then
          .ok [ParamType.pointerTo className]
        else
          .error (.internalAbort "called into_struct_type on a non-struct type")
  else .ok []

/-- The Function-kind arm of `create_parameters_for_implementation` (source
lines 208-218): resolve each parameter-kind member's associated type into a
by-value parameter, collecting the first failure (the iterator `collect`
over `Result`). -/
def collectParameterTypes (llvmIndex : LlvmTypedIndex) :
    List VariableIndexEntry → Except Diagnostic (List ParamType)
  | [] => .ok []
  | v :: rest =>
    match llvmIndex.getAssociatedType v.typeName with
    | .error e => .error e
    | .ok ty =>
      match collectParameterTypes llvmIndex rest with
      | .error e => .error e
      | .ok tys => .ok (ParamType.byValue ty :: tys)

/-- Embedding of `create_parameters_for_implementation` (source lines
181-220): for Function kind, one by-value parameter per parameter-kind
member of the callable's container, in declaration order; otherwise the
Method-kind class pointer (if any) followed by a pointer to the callable's
own instance struct. -/
def createParametersForImplementation (idx : Index) (llvmIndex : LlvmTypedIndex)
    (impl : ImplementationIndexEntry) : Except Diagnostic (List ParamType) :=
  if impl.implementationType ≠ ImplementationType.function then
    match methodClassParams llvmIndex impl with
    | .error e => .error e
    | .ok classParams =>
      match llvmIndex.getAssociatedPouType impl.typeName with
      | .error e => .error e
      | .ok pouType =>
        if pouType.kind = TypeKind.structTy then
          .ok (classParams ++ [ParamType.pointerTo impl.typeName])
        else
          .error (.internalAbort "called into_struct_type on a non-struct type")
  else
    collectParameterTypes llvmIndex
      ((idx.getContainerMembers impl.callName).filter (fun v => v.is_parameter))

/-- Embedding of `create_llvm_function_type` (source lines 320-349): builds
the function type when the return type is int/float/array/pointer/struct or
absent (void), and fails with "Unsupported return type" otherwise. -/
def createLlvmFunctionType (parameters : List ParamType) (isVarArgs : Bool)
    (returnType : Option AssociatedType) : Except Diagnostic FunctionType :=
  match returnType with
  | some ty =>
    match ty.kind with
    | .intTy | .floatTy | .arrayTy | .pointerTy | .structTy =>
      .ok ⟨parameters, isVarArgs, some ty⟩
    | _ => .error (.codegenError "Unsupported return type" SourceRange.undefined)
  | none => .ok ⟨parameters, isVarArgs, none⟩

/-! ## Stub generator (`generate_implementation_stub(s)`) -/

/-- The return-type resolution of `generate_implementation_stub` (source
lines 161-164): the associated target type of the declared return
variable's type, or none (void). -/
def resolveReturnType (idx : Index) (llvmIndex : LlvmTypedIndex) (typeName : String) :
    Except Diagnostic (Option AssociatedType) :=
  match idx.findReturnType typeName with
  | some rTypeName =>
    match llvmIndex.getAssociatedType rTypeName with
    | .error e => .error e
    | .ok ty => .ok (some ty)
  | none => .ok none

/-- Embedding of `generate_implementation_stub` (source lines 150-176):
build the parameter list, resolve the associated return type (if a return
variable is declared), copy the variadic flag from the owning POU's
effective type information, build the function type and add the named
function to the module. -/
def generateImplementationStub (idx : Index) (llvmIndex : LlvmTypedIndex)
    (impl : ImplementationIndexEntry) : Except Diagnostic FunctionDecl :=
  match createParametersForImplementation idx llvmIndex impl with
  | .error e => .error e
  | .ok parameters =>
    match resolveReturnType idx llvmIndex impl.typeName with
    | .error e => .error e
    | .ok returnType =>
      let variadic := ((idx.findEffectiveTypeInfo impl.typeName).map
        (fun it => it.is_variadic)).getD false
      match createLlvmFunctionType parameters variadic returnType with
      | .error e => .error e
      | .ok functionDeclaration =>
        .ok ⟨impl.callName, functionDeclaration.params, functionDeclaration.returnType,
          functionDeclaration.variadic⟩

/-- The loop of `generate_implementation_stubs` (source lines 53-60) over a
given list of implementation entries: entries whose call name has a POU in
the index that is not generic get a stub associated under the entry's name;
all other entries are skipped. -/
def goStubs (idx : Index) (llvmIndex : LlvmTypedIndex) :
    List (String × ImplementationIndexEntry) → Except Diagnostic (List (String × FunctionDecl))
  | [] => .ok []
  | (name, impl) :: rest =>
    match idx.findPou impl.callName with
    | some pou =>
      if !pou.isGeneric then
        match generateImplementationStub idx llvmIndex impl with
        | .error e => .error e
        | .ok currF =>
          match goStubs idx llvmIndex rest with
          | .error e => .error e
          | .ok out => .ok ((name, currF) :: out)
      else
        goStubs idx llvmIndex rest
    | none => goStubs idx llvmIndex rest

/-- Embedding of `generate_implementation_stubs` (source lines 44-63):
returns the fresh typed-index fragment mapping implementation names to
their generated stubs. -/
def generateImplementationStubs (idx : Index) (llvmIndex : LlvmTypedIndex) :
    Except Diagnostic (List (String × FunctionDecl)) :=
  goStubs idx llvmIndex idx.implementations

/-- The stub-generation condition of `generate_implementation_stubs`: the
entry's call name resolves to a POU and that POU is not generic. -/
def stubCondition (idx : Index) (impl : ImplementationIndexEntry) : Bool :=
  match idx.findPou impl.callName with
  | some pou => !pou.isGeneric
  | none => false

/-! ## Global-constant hoister (`generate_global_constants_for_pou_members`) -/

/-- Embedding of the shared `right_stmt` computation (source lines 93-106
and 468-481): a variable with an initial-value reference must resolve it to
a constant statement, else generation fails with "cannot generate
initializer" carrying the qualified name and source location; a variable
with no initial value yields `none`. -/
def rightStatement (idx : Index) (v : VariableIndexEntry) :
    Except Diagnostic (Option Statement) :=
  match v.initialValue with
  | some _ =>
    match idx.maybeGetConstantStatement v.initialValue with
    | some stmt => .ok (some stmt)
    | none => .error (.cannotGenerateInitializer v.qualifiedName v.sourceLocation)
  | none => .ok none

/-- The member filter of the hoister (source lines 80-88): member variables
of the container that are local or temp and whose effective type is struct,
array or string. -/
def hoistCandidates (idx : Index) (typeName : String) : List VariableIndexEntry :=
  ((idx.getContainerMembers typeName).filter
      (fun it => it.is_local || it.is_temp)).filter
    (fun it =>
      let varType := idx.getEffectiveTypeInformation it.typeName
      varType.is_struct || varType.is_array || varType.is_string)

/-- The global constant created by the hoister for a variable:
`create_global_variable(..).make_constant().set_initial_value(..)`.  A
freshly created LLVM global reports alignment 0 (the source's TODO note:
"This seems to always be 0"). -/
def mkConstGlobal (name : String) (varType : AssociatedType) (value : Value) : GlobalValue :=
  ⟨name, 0, some varType, some value, true⟩

/-- The hoister's value resolution (source lines 111-117): a previously
associated initial value for the qualified name (fast path), or else the
result of evaluating the constant statement with the context-free
expression generator. -/
def hoistValue (llvmIndex : LlvmTypedIndex) (expGen : Statement → Except Diagnostic Value)
    (v : VariableIndexEntry) (stmt : Statement) : Except Diagnostic Value :=
  match llvmIndex.findAssociatedInitialValue v.qualifiedName with
  | some value => .ok value
  | none => expGen stmt

/-- Embedding of the hoister's per-variable loop body (source lines 91-126):
derive the initializer name, resolve the constant statement (failing when
an initial-value reference is unresolvable), and, when an initial value
exists and no global under the derived name exists in the input typed
index, obtain the value and create the constant global.  Returns the list
of `(name, global)` pairs recorded into the hoister's local index. -/
def hoistVariable (idx : Index) (llvmIndex : LlvmTypedIndex)
    (expGen : Statement → Except Diagnostic Value) (v : VariableIndexEntry) :
    Except Diagnostic (List (String × GlobalValue)) :=
  let name := get_initializer_name v.qualifiedName
  match rightStatement idx v with
  | .error e => .error e
  | .ok none => .ok []
  | .ok (some stmt) =>
    if (llvmIndex.findGlobalValue name).isNone then
      match hoistValue llvmIndex expGen v stmt with
      | .error e => .error e
      | .ok value =>
        match llvmIndex.getAssociatedType v.typeName with
        | .error e => .error e
        | .ok variableType => .ok [(name, mkConstGlobal name variableType value)]
    else
      .ok []

/-- The hoister's inner loop over the candidate variables of one
implementation's container. -/
def goHoistVars (idx : Index) (llvmIndex : LlvmTypedIndex)
    (expGen : Statement → Except Diagnostic Value) :
    List VariableIndexEntry → Except Diagnostic (List (String × GlobalValue))
  | [] => .ok []
  | v :: rest =>
    match hoistVariable idx llvmIndex expGen v with
    | .error e => .error e
    | .ok gs =>
      match goHoistVars idx llvmIndex expGen rest with
      | .error e => .error e
      | .ok gs2 => .ok (gs ++ gs2)

/-- The hoister's outer loop over all implementation entries (source lines
77-127): each implementation contributes the hoists of its own container's
candidate members.  The pre-creation name lookup inside `hoistVariable`
consults only the input `llvmIndex`, never the accumulated output, exactly
as in the source (`local_llvm_index` is a separate fresh index). -/
def goHoistImpls (idx : Index) (llvmIndex : LlvmTypedIndex)
    (expGen : Statement → Except Diagnostic Value) :
    List (String × ImplementationIndexEntry) → Except Diagnostic (List (String × GlobalValue))
  | [] => .ok []
  | (_, impl) :: rest =>
    match goHoistVars idx llvmIndex expGen (hoistCandidates idx impl.typeName) with
    | .error e => .error e
    | .ok gs =>
      match goHoistImpls idx llvmIndex expGen rest with
      | .error e => .error e
      | .ok gs2 => .ok (gs ++ gs2)

/-- Embedding of `generate_global_constants_for_pou_members` (source lines
69-129): returns the `(name, global)` pairs associated into the returned
local typed index, in creation order. -/
def generateGlobalConstantsForPouMembers (idx : Index) (llvmIndex : LlvmTypedIndex)
    (expGen : Statement → Except Diagnostic Value) :
    Except Diagnostic (List (String × GlobalValue)) :=
  goHoistImpls idx llvmIndex expGen idx.implementations

/-! ## Local-binding generator (`generate_local_*_accessors`) -/

/-- The loop of `generate_local_function_arguments_accessors` (source lines
352-397) with its running counter `var_count`, which advances only on
parameter-kind members.  A Return-kind member gets a fresh local slot
recorded under the derived return name; a parameter-kind member gets a
fresh local slot into which the positional incoming argument is stored
(failing with "missing function" when the argument is absent); every other
member gets a fresh local slot.  Returns the recorded bindings (in member
order) and the emitted instructions. -/
def genFunArgsGo (llvmIndex : LlvmTypedIndex) (typeName : String) (f : FunctionDecl) :
    List VariableIndexEntry → Nat →
    Except Diagnostic (List (String × PtrValue) × List Instr)
  | [], _ => .ok ([], [])
  | m :: rest, varCount =>
    if m.is_return then
      match llvmIndex.getAssociatedType m.typeName with
      | .error e => .error e
      | .ok returnType =>
        match genFunArgsGo llvmIndex typeName f rest varCount with
        | .error e => .error e
        | .ok (bs, instrs) =>
          .ok ((localKey typeName (Pou.calcReturnName typeName),
              PtrValue.alloca typeName returnType) :: bs,
            Instr.allocaI typeName returnType :: instrs)
    else if m.is_parameter then
      match f.getNthParam varCount with
      | none => .error (.missingFunction m.sourceLocation)
      | some ptrValue =>
        match llvmIndex.getAssociatedType m.typeName with
        | .error e => .error e
        | .ok ty =>
          match genFunArgsGo llvmIndex typeName f rest (varCount + 1) with
          | .error e => .error e
          | .ok (bs, instrs) =>
            .ok ((localKey typeName m.name, PtrValue.alloca m.name ty) :: bs,
              Instr.allocaI m.name ty ::
                Instr.storeI (PtrValue.alloca m.name ty) ptrValue :: instrs)
    else
      match llvmIndex.getAssociatedType m.typeName with
      | .error e => .error e
      | .ok tempType =>
        match genFunArgsGo llvmIndex typeName f rest varCount with
        | .error e => .error e
        | .ok (bs, instrs) =>
          .ok ((localKey typeName m.name, PtrValue.alloca m.name tempType) :: bs,
            Instr.allocaI m.name tempType :: instrs)

/-- Embedding of `generate_local_function_arguments_accessors`: the loop
starting with `var_count = 0`. -/
def generateLocalFunctionArgumentsAccessors (llvmIndex : LlvmTypedIndex) (typeName : String)
    (f : FunctionDecl) (members : List VariableIndexEntry) :
    Except Diagnostic (List (String × PtrValue) × List Instr) :=
  genFunArgsGo llvmIndex typeName f members 0

/-- The loop of `generate_local_struct_variable_accessors` (source lines
401-442) with its running counter `var_count`, which advances only on
non-Temp/non-Return members.  Temp and Return members get fresh local
slots; every other member is bound to a field address computed into the
instance-struct pointer parameter at position `argIndex` via
`build_struct_gep` at field index `var_count` (failing with "missing
function" when that parameter is absent).  The gep result's pointee type is
the struct field's LLVM type, laid out upstream from the member's
associated type. -/
def genStructVarsGo (llvmIndex : LlvmTypedIndex) (argIndex : Nat) (typeName : String)
    (f : FunctionDecl) :
    List VariableIndexEntry → Nat →
    Except Diagnostic (List (String × PtrValue) × List Instr)
  | [], _ => .ok ([], [])
  | m :: rest, varCount =>
    if m.is_temp || m.is_return then
      match llvmIndex.getAssociatedType m.typeName with
      | .error e => .error e
      | .ok tempType =>
        match genStructVarsGo llvmIndex argIndex typeName f rest varCount with
        | .error e => .error e
        | .ok (bs, instrs) =>
          .ok ((localKey typeName m.name, PtrValue.alloca m.name tempType) :: bs,
            Instr.allocaI m.name tempType :: instrs)
    else
      match f.getNthParam argIndex with
      | none => .error (.missingFunction m.sourceLocation)
      | some _ =>
        match genStructVarsGo llvmIndex argIndex typeName f rest (varCount + 1) with
        | .error e => .error e
        | .ok (bs, instrs) =>
          .ok ((localKey typeName m.name,
              PtrValue.structGep argIndex varCount m.name
                ((llvmIndex.findAssociatedType m.typeName).getD ⟨TypeKind.intTy, none⟩)) :: bs,
            Instr.gepI argIndex varCount m.name :: instrs)

/-- Embedding of `generate_local_struct_variable_accessors`: the loop
starting with `var_count = 0`. -/
def generateLocalStructVariableAccessors (llvmIndex : LlvmTypedIndex) (argIndex : Nat)
    (typeName : String) (f : FunctionDecl) (members : List VariableIndexEntry) :
    Except Diagnostic (List (String × PtrValue) × List Instr) :=
  genStructVarsGo llvmIndex argIndex typeName f members 0

/-- Number of parameter-kind members strictly before position `i` — the
value of the function variant's `var_count` when member `i` is processed. -/
def paramCountBefore (members : List VariableIndexEntry) (i : Nat) : Nat :=
  ((members.take i).filter (fun m => m.is_parameter)).length

/-- Number of non-Temp/non-Return members strictly before position `i` —
the value of the struct variant's `var_count` when member `i` is
processed. -/
def fieldIndexBefore (members : List VariableIndexEntry) (i : Nat) : Nat :=
  ((members.take i).filter (fun m => !(m.is_temp || m.is_return))).length

/-! ## Initialization emitter (`generate_initialization_of_local_vars`) -/

/-- The emitter's member filter (source lines 452-454): only Local, Temp
and Return members are initialized. -/
def initEmitterSelection (vars : List VariableIndexEntry) : List VariableIndexEntry :=
  vars.filter (fun it => it.is_local || it.is_temp || it.is_return)

/-- The member subset the orchestrator passes to the initialization
emitter (source lines 286-298): all container members for Function and
Method kinds, only Temp members for all other kinds. -/
def membersForInitialization (pouType : PouType) (pouMembers : List VariableIndexEntry) :
    List VariableIndexEntry :=
  match pouType with
  | .function | .method => pouMembers
  | _ => pouMembers.filter (fun it => it.is_temp)

/-- The byte size of a variable's associated type (source lines 484-488):
`find_associated_type(..).and_then(size_of)`; `none` models the
"Couldn't determine type size" error value. -/
def typeSizeOf (llvmIndex : LlvmTypedIndex) (v : VariableIndexEntry) : Option Nat :=
  (llvmIndex.findAssociatedType v.typeName).bind (fun ty => ty.sizeOf)

/-- The hoisted global consulted by the emitter (source lines 490-496): the
global under the variable's derived initializer name, or else the one
under its type's derived initializer name. -/
def hoistedGlobalFor (llvmIndex : LlvmTypedIndex) (v : VariableIndexEntry) :
    Option GlobalValue :=
  match llvmIndex.findGlobalValue (get_initializer_name v.qualifiedName) with
  | some g => some g
  | none => llvmIndex.findGlobalValue (get_initializer_name v.typeName)

/-- The stored value of the emitter's fallback branch (source lines
524-537): the evaluated constant statement when one exists, else the
type's canonical default value (`get_default_for`), failing when the type
has no associated target type. -/
def storeSourceValue (llvmIndex : LlvmTypedIndex)
    (expGen : Statement → Except Diagnostic Value) (v : VariableIndexEntry)
    (rightStmt : Option Statement) : Except Diagnostic Value :=
  match rightStmt with
  | some stmt => expGen stmt
  | none =>
    match llvmIndex.findAssociatedType v.typeName with
    | some ty => .ok (Value.defaultFor ty)
    | none => .error (.cannotGenerateInitializer v.qualifiedName v.sourceLocation)

/-- Embedding of the emitter's per-variable loop body (source lines
463-546): resolve the local binding (its absence is fatal), resolve the
constant statement, then either bulk-copy the hoisted global (memcpy with
the type's byte size and alignment `max 1` of the global's reported
alignment), zero-fill an array-typed slot (memset), or store the evaluated
initializer or the type's canonical default. -/
def initializeVariable (idx : Index) (llvmIndex : LlvmTypedIndex)
    (expGen : Statement → Except Diagnostic Value) (li : LlvmLocalIndex)
    (v : VariableIndexEntry) : Except Diagnostic (List Instr) :=
  match li.findLoadedAssociatedVariableValue v.qualifiedName with
  | none => .error (.cannotGenerateInitializer v.qualifiedName v.sourceLocation)
  | some left =>
    match rightStatement idx v with
    | .error e => .error e
    | .ok rightStmt =>
      match hoistedGlobalFor llvmIndex v with
      | some globalValue =>
        match typeSizeOf llvmIndex v with
        | none => .error (.codegenError "Could not determine type size" v.sourceLocation)
        | some s =>
          .ok [Instr.memcpyI left (max 1 globalValue.alignment) globalValue.name
            (max 1 globalValue.alignment) s]
      | none =>
        if left.elementType.kind = TypeKind.arrayTy then
          match typeSizeOf llvmIndex v with
          | none => .error (.codegenError "Could not determine type size" v.sourceLocation)
          | some s => .ok [Instr.memsetI left 1 0 s]
        else
          match storeSourceValue llvmIndex expGen v rightStmt with
          | .error e => .error e
          | .ok value => .ok [Instr.storeI left value]

/-- The emitter's loop over the selected variables. -/
def goInitVars (idx : Index) (llvmIndex : LlvmTypedIndex)
    (expGen : Statement → Except Diagnostic Value) (li : LlvmLocalIndex) :
    List VariableIndexEntry → Except Diagnostic (List Instr)
  | [] => .ok []
  | v :: rest =>
    match initializeVariable idx llvmIndex expGen li v with
    | .error e => .error e
    | .ok instrs =>
      match goInitVars idx llvmIndex expGen li rest with
      | .error e => .error e
      | .ok instrs2 => .ok (instrs ++ instrs2)

/-- Embedding of `generate_initialization_of_local_vars` (source lines
447-548): filter to Local/Temp/Return members, then initialize each in
order. -/
def generateInitializationOfLocalVars (idx : Index) (llvmIndex : LlvmTypedIndex)
    (expGen : Statement → Except Diagnostic Value) (li : LlvmLocalIndex)
    (vars : List VariableIndexEntry) : Except Diagnostic (List Instr) :=
  goInitVars idx llvmIndex expGen li (initEmitterSelection vars)

/-! ## Return synthesizer (`generate_return_statement`) -/

/-- Embedding of `generate_return_statement` (source lines 553-579): when
the owning type declares a return variable, load its bound local slot
(its absence is a fatal codegen error) and return the loaded value; with no
declared return variable, return void. -/
def generateReturnStatement (idx : Index) (fc : FunctionContext) (li : LlvmLocalIndex) :
    Except Diagnostic (List Instr) :=
  match idx.findReturnVariable fc.typeName with
  | some retV =>
    let varName := fc.callName ++ "_ret"
    match li.findLoadedAssociatedVariableValue retV.qualifiedName with
    | none =>
      .error (.codegenError ("Cannot generate return variable for " ++ fc.callName)
        SourceRange.undefined)
    | some valuePtr =>
      .ok [Instr.loadI valuePtr varName,
        Instr.retI (some (Value.loaded valuePtr varName))]
  | none => .ok [Instr.retI none]

/-! ## Helper lemmas -/

/-- A parameter-kind member is not of Local, Temp or Return kind. -/
theorem is_parameter_not_init_kind (v : VariableIndexEntry) (h : v.is_parameter = true) :
    (v.is_local || v.is_temp || v.is_return) = false := by
  cases hv : v.variableType <;>
    simp [VariableIndexEntry.is_parameter, VariableIndexEntry.is_local,
      VariableIndexEntry.is_temp, VariableIndexEntry.is_return, hv] at h ⊢

/-- In a list of key-value pairs with pairwise-distinct keys, a key
determines its value. -/
theorem keyed_mem_unique {β : Type} :
    ∀ (l : List (String × β)) (a : String) (b b' : β),
      (l.map Prod.fst).Nodup → (a, b) ∈ l → (a, b') ∈ l → b = b'
  | [], _, _, _, _, h, _ => by simp at h
  | (k, w) :: rest, a, b, b', hnd, hb, hb' => by
    simp only [List.map_cons, List.nodup_cons] at hnd
    rcases List.mem_cons.mp hb with h1 | h1 <;>
      rcases List.mem_cons.mp hb' with h2 | h2
    · rw [Prod.mk.injEq] at h1 h2
      rw [h1.2, h2.2]
    · exfalso
      exact hnd.1 (by simpa [← (Prod.mk.injEq .. |>.mp h1).1] using
        List.mem_map_of_mem Prod.fst h2)
    · exfalso
      exact hnd.1 (by simpa [← (Prod.mk.injEq .. |>.mp h2).1] using
        List.mem_map_of_mem Prod.fst h1)
    · exact keyed_mem_unique rest a b b' hnd.2 h1 h2

/-- The names recorded by the stub loop are exactly the names of the
entries satisfying the stub-generation condition, in order. -/
theorem goStubs_map_fst (idx : Index) (llvmIndex : LlvmTypedIndex) :
    ∀ (l : List (String × ImplementationIndexEntry)) (out : List (String × FunctionDecl)),
      goStubs idx llvmIndex l = .ok out →
      out.map Prod.fst = (l.filter (fun p => stubCondition idx p.2)).map Prod.fst
  | [], out, h => by
    simp only [goStubs] at h
    cases h
    simp
  | (name, impl) :: rest, out, h => by
    rw [goStubs] at h
    cases hfp : idx.findPou impl.callName with
    | none =>
      rw [hfp] at h
      have := goStubs_map_fst idx llvmIndex rest out h
      simpa [List.filter_cons, stubCondition, hfp] using this
    | some pou =>
      rw [hfp] at h
      cases hg : pou.isGeneric with
      | true =>
        simp only [hg, Bool.not_true, Bool.false_eq_true, if_false] at h
        have := goStubs_map_fst idx llvmIndex rest out h
        simpa [List.filter_cons, stubCondition, hfp, hg] using this
      | false =>
        simp only [hg, Bool.not_false, if_true] at h
        cases hstub : generateImplementationStub idx llvmIndex impl with
        | error e => rw [hstub] at h; cases h
        | ok f =>
          rw [hstub] at h
          cases hrest : goStubs idx llvmIndex rest with
          | error e => rw [hrest] at h; cases h
          | ok out' =>
            rw [hrest] at h
            cases h
            have := goStubs_map_fst idx llvmIndex rest out' hrest
            simp [List.filter_cons, stubCondition, hfp, hg, this]

/-- Placeholder variable entry used as a `getD` default in indexed
statements. -/
def dummyVar : VariableIndexEntry :=
  ⟨"", "", "", VariableType.temp, none, SourceRange.undefined⟩

/-- Placeholder parameter used as a `getD` default. -/
def dummyParam : ParamType :=
  ParamType.pointerTo ""

/-- Placeholder binding used as a `getD` default. -/
def dummyBind : String × PtrValue :=
  ("", PtrValue.alloca "" ⟨TypeKind.intTy, none⟩)

/-- The Function-kind parameter collection resolves, in order, one
by-value parameter per listed member. -/
theorem collectParameterTypes_spec (llvmIndex : LlvmTypedIndex) :
    ∀ (l : List VariableIndexEntry) (ps : List ParamType),
      collectParameterTypes llvmIndex l = .ok ps →
      ps.length = l.length ∧
      ∀ i, i < l.length →
        ∃ ty, llvmIndex.getAssociatedType (l.getD i dummyVar).typeName = .ok ty ∧
          ps.getD i dummyParam = ParamType.byValue ty
  | [], ps, h => by
    cases h
    exact ⟨rfl, fun i hi => absurd hi (by simp)⟩
  | v :: rest, ps, h => by
    rw [collectParameterTypes] at h
    cases hty : llvmIndex.getAssociatedType v.typeName with
    | error e => rw [hty] at h; cases h
    | ok ty =>
      rw [hty] at h
      cases hrest : collectParameterTypes llvmIndex rest with
      | error e => rw [hrest] at h; cases h
      | ok tys =>
        rw [hrest] at h
        cases h
        obtain ⟨hlen, hspec⟩ := collectParameterTypes_spec llvmIndex rest tys hrest
        refine ⟨by simp [hlen], ?_⟩
        intro i hi
        cases i with
        | zero => exact ⟨ty, by simpa using hty, rfl⟩
        | succ j =>
          have hj : j < rest.length := by simpa using hi
          obtain ⟨ty', h1, h2⟩ := hspec j hj
          exact ⟨ty', by simpa using h1, by simpa using h2⟩

/-- A Return-kind member is not a parameter-kind member. -/
theorem is_return_not_parameter (v : VariableIndexEntry) (h : v.is_return = true) :
    v.is_parameter = false := by
  cases hv : v.variableType <;>
    simp [VariableIndexEntry.is_return, VariableIndexEntry.is_parameter, hv] at h ⊢

/-- Positional-argument lookup succeeds exactly below the parameter count,
yielding the n-th incoming argument. -/
theorem getNthParam_eq (f : FunctionDecl) (n : Nat) (pv : Value)
    (h : f.getNthParam n = some pv) :
    n < f.paramTypes.length ∧ pv = Value.param n := by
  rw [FunctionDecl.getNthParam] at h
  by_cases hlt : n < f.paramTypes.length
  · rw [if_pos hlt] at h
    cases h
    exact ⟨hlt, rfl⟩
  · rw [if_neg hlt] at h
    cases h

/-- Unfolding the parameter-position counter one member at a time. -/
theorem paramCountBefore_cons (m : VariableIndexEntry) (rest : List VariableIndexEntry)
    (j : Nat) :
    paramCountBefore (m :: rest) (j + 1) =
      (if m.is_parameter = true then 1 else 0) + paramCountBefore rest j := by
  simp only [paramCountBefore, List.take_succ_cons, List.filter_cons]
  by_cases hp : m.is_parameter = true
  · simp [hp, Nat.add_comm]
  · simp [hp]

/-- The counter is zero before the first member. -/
theorem paramCountBefore_zero (members : List VariableIndexEntry) :
    paramCountBefore members 0 = 0 := by
  simp [paramCountBefore]

/-- Unfolding the struct-field-index counter one member at a time. -/
theorem fieldIndexBefore_cons (m : VariableIndexEntry) (rest : List VariableIndexEntry)
    (j : Nat) :
    fieldIndexBefore (m :: rest) (j + 1) =
      (if (m.is_temp || m.is_return) = false then 1 else 0) + fieldIndexBefore rest j := by
  simp only [fieldIndexBefore, List.take_succ_cons, List.filter_cons]
  by_cases hp : (m.is_temp || m.is_return) = false
  · simp [hp, Nat.add_comm]
  · simp only [Bool.not_eq_false] at hp
    simp [hp]

/-- The field index is zero before the first member. -/
theorem fieldIndexBefore_zero (members : List VariableIndexEntry) :
    fieldIndexBefore members 0 = 0 := by
  simp [fieldIndexBefore]

/-- Characterization of the function-variant binding loop: starting at
positional counter `varCount`, each member gets a binding in member order —
a Return member a fresh slot under the derived return name, a parameter
member a fresh slot fed by a store of the incoming argument at the
position counted over parameter-kind members only, and any other member a
plain fresh slot. -/
theorem genFunArgsGo_spec (llvmIndex : LlvmTypedIndex) (typeName : String)
    (f : FunctionDecl) :
    ∀ (members : List VariableIndexEntry) (varCount : Nat)
      (bs : List (String × PtrValue)) (instrs : List Instr),
      genFunArgsGo llvmIndex typeName f members varCount = .ok (bs, instrs) →
      bs.length = members.length ∧
      ∀ i, i < members.length →
        ((members.getD i dummyVar).is_return = true →
          ∃ ty, llvmIndex.getAssociatedType (members.getD i dummyVar).typeName = .ok ty ∧
            bs.getD i dummyBind =
              (localKey typeName (Pou.calcReturnName typeName),
                PtrValue.alloca typeName ty) ∧
            Instr.allocaI typeName ty ∈ instrs) ∧
        ((members.getD i dummyVar).is_parameter = true →
          ∃ ty, llvmIndex.getAssociatedType (members.getD i dummyVar).typeName = .ok ty ∧
            bs.getD i dummyBind =
              (localKey typeName (members.getD i dummyVar).name,
                PtrValue.alloca (members.getD i dummyVar).name ty) ∧
            varCount + paramCountBefore members i < f.paramTypes.length ∧
            Instr.storeI (PtrValue.alloca (members.getD i dummyVar).name ty)
              (Value.param (varCount + paramCountBefore members i)) ∈ instrs) ∧
        ((members.getD i dummyVar).is_return = false →
          (members.getD i dummyVar).is_parameter = false →
          ∃ ty, llvmIndex.getAssociatedType (members.getD i dummyVar).typeName = .ok ty ∧
            bs.getD i dummyBind =
              (localKey typeName (members.getD i dummyVar).name,
                PtrValue.alloca (members.getD i dummyVar).name ty) ∧
            Instr.allocaI (members.getD i dummyVar).name ty ∈ instrs)
  | [], varCount, bs, instrs, h => by
    cases h
    exact ⟨rfl, fun i hi => absurd hi (by simp)⟩
  | m :: rest, varCount, bs, instrs, h => by
    rw [genFunArgsGo] at h
    by_cases hret : m.is_return = true
    · rw [if_pos hret] at h
      cases hty : llvmIndex.getAssociatedType m.typeName with
      | error e => rw [hty] at h; cases h
      | ok ty =>
        simp only [hty] at h
        cases hrec : genFunArgsGo llvmIndex typeName f rest varCount with
        | error e => rw [hrec] at h; cases h
        | ok pr =>
          obtain ⟨bs', instrs'⟩ := pr
          simp only [hrec] at h
          cases h
          obtain ⟨hlen, hspec⟩ :=
            genFunArgsGo_spec llvmIndex typeName f rest varCount bs' instrs' hrec
          have hpm : m.is_parameter = false := is_return_not_parameter m hret
          refine ⟨by simp [hlen], ?_⟩
          intro i hi
          cases i with
          | zero =>
            refine ⟨?_, ?_, ?_⟩
            · intro _
              exact ⟨ty, by simpa using hty, by simp, by simp⟩
            · intro hp
              rw [List.getD_cons_zero, hpm] at hp
              cases hp
            · intro hr _
              rw [List.getD_cons_zero, hret] at hr
              cases hr
          | succ j =>
            have hj : j < rest.length := by simpa using hi
            obtain ⟨A, B, C⟩ := hspec j hj
            refine ⟨?_, ?_, ?_⟩
            · intro hr
              simp only [List.getD_cons_succ] at hr ⊢
              obtain ⟨ty', h1, h2, h3⟩ := A hr
              exact ⟨ty', h1, h2, List.mem_cons_of_mem _ h3⟩
            · intro hp
              simp only [List.getD_cons_succ] at hp ⊢
              rw [paramCountBefore_cons, if_neg (by simp [hpm]), Nat.zero_add]
              obtain ⟨ty', h1, h2, h3, h4⟩ := B hp
              exact ⟨ty', h1, h2, h3, List.mem_cons_of_mem _ h4⟩
            · intro hr hp
              simp only [List.getD_cons_succ] at hr hp ⊢
              obtain ⟨ty', h1, h2, h3⟩ := C hr hp
              exact ⟨ty', h1, h2, List.mem_cons_of_mem _ h3⟩
    · rw [if_neg hret] at h
      have hretf : m.is_return = false := by simpa using hret
      by_cases hpar : m.is_parameter = true
      · rw [if_pos hpar] at h
        cases hnp : f.getNthParam varCount with
        | none => rw [hnp] at h; cases h
        | some pv =>
          simp only [hnp] at h
          obtain ⟨hlt, hpv⟩ := getNthParam_eq f varCount pv hnp
          subst hpv
          cases hty : llvmIndex.getAssociatedType m.typeName with
          | error e => rw [hty] at h; cases h
          | ok ty =>
            simp only [hty] at h
            cases hrec : genFunArgsGo llvmIndex typeName f rest (varCount + 1) with
            | error e => rw [hrec] at h; cases h
            | ok pr =>
              obtain ⟨bs', instrs'⟩ := pr
              simp only [hrec] at h
              cases h
              obtain ⟨hlen, hspec⟩ :=
                genFunArgsGo_spec llvmIndex typeName f rest (varCount + 1) bs' instrs' hrec
              refine ⟨by simp [hlen], ?_⟩
              intro i hi
              cases i with
              | zero =>
                refine ⟨?_, ?_, ?_⟩
                · intro hr
                  rw [List.getD_cons_zero, hretf] at hr
                  cases hr
                · intro _
                  refine ⟨ty, by simpa using hty, by simp, ?_, ?_⟩
                  · rw [paramCountBefore_zero]
                    simpa using hlt
                  · rw [paramCountBefore_zero]
                    simp
                · intro _ hp
                  rw [List.getD_cons_zero, hpar] at hp
                  cases hp
              | succ j =>
                have hj : j < rest.length := by simpa using hi
                obtain ⟨A, B, C⟩ := hspec j hj
                refine ⟨?_, ?_, ?_⟩
                · intro hr
                  simp only [List.getD_cons_succ] at hr ⊢
                  obtain ⟨ty', h1, h2, h3⟩ := A hr
                  exact ⟨ty', h1, h2,
                    List.mem_cons_of_mem _ (List.mem_cons_of_mem _ h3)⟩
                · intro hp
                  simp only [List.getD_cons_succ] at hp ⊢
                  rw [paramCountBefore_cons, if_pos hpar]
                  have harith : varCount + (1 + paramCountBefore rest j) =
                      varCount + 1 + paramCountBefore rest j := by omega
                  rw [harith]
                  obtain ⟨ty', h1, h2, h3, h4⟩ := B hp
                  exact ⟨ty', h1, h2, h3,
                    List.mem_cons_of_mem _ (List.mem_cons_of_mem _ h4)⟩
                · intro hr hp
                  simp only [List.getD_cons_succ] at hr hp ⊢
                  obtain ⟨ty', h1, h2, h3⟩ := C hr hp
                  exact ⟨ty', h1, h2,
                    List.mem_cons_of_mem _ (List.mem_cons_of_mem _ h3)⟩
      · rw [if_neg hpar] at h
        have hparf : m.is_parameter = false := by simpa using hpar
        cases hty : llvmIndex.getAssociatedType m.typeName with
        | error e => rw [hty] at h; cases h
        | ok ty =>
          simp only [hty] at h
          cases hrec : genFunArgsGo llvmIndex typeName f rest varCount with
          | error e => rw [hrec] at h; cases h
          | ok pr =>
            obtain ⟨bs', instrs'⟩ := pr
            simp only [hrec] at h
            cases h
            obtain ⟨hlen, hspec⟩ :=
              genFunArgsGo_spec llvmIndex typeName f rest varCount bs' instrs' hrec
            refine ⟨by simp [hlen], ?_⟩
            intro i hi
            cases i with
            | zero =>
              refine ⟨?_, ?_, ?_⟩
              · intro hr
                rw [List.getD_cons_zero, hretf] at hr
                cases hr
              · intro hp
                rw [List.getD_cons_zero, hparf] at hp
                cases hp
              · intro _ _
                exact ⟨ty, by simpa using hty, by simp, by simp⟩
            | succ j =>
              have hj : j < rest.length := by simpa using hi
              obtain ⟨A, B, C⟩ := hspec j hj
              refine ⟨?_, ?_, ?_⟩
              · intro hr
                simp only [List.getD_cons_succ] at hr ⊢
                obtain ⟨ty', h1, h2, h3⟩ := A hr
                exact ⟨ty', h1, h2, List.mem_cons_of_mem _ h3⟩
              · intro hp
                simp only [List.getD_cons_succ] at hp ⊢
                rw [paramCountBefore_cons, if_neg (by simp [hparf]), Nat.zero_add]
                obtain ⟨ty', h1, h2, h3, h4⟩ := B hp
                exact ⟨ty', h1, h2, h3, List.mem_cons_of_mem _ h4⟩
              · intro hr hp
                simp only [List.getD_cons_succ] at hr hp ⊢
                obtain ⟨ty', h1, h2, h3⟩ := C hr hp
                exact ⟨ty', h1, h2, List.mem_cons_of_mem _ h3⟩

/-- Characterization of the struct-variant binding loop: starting at field
counter `varCount`, Temp and Return members get fresh local slots while
every other member is bound to a field address into the pointer parameter
at `argIndex`, with a field index counted over non-Temp/non-Return members
only. -/
theorem genStructVarsGo_spec (llvmIndex : LlvmTypedIndex) (argIndex : Nat)
    (typeName : String) (f : FunctionDecl) :
    ∀ (members : List VariableIndexEntry) (varCount : Nat)
      (bs : List (String × PtrValue)) (instrs : List Instr),
      genStructVarsGo llvmIndex argIndex typeName f members varCount = .ok (bs, instrs) →
      bs.length = members.length ∧
      ∀ i, i < members.length →
        (((members.getD i dummyVar).is_temp || (members.getD i dummyVar).is_return) = true →
          ∃ ty, llvmIndex.getAssociatedType (members.getD i dummyVar).typeName = .ok ty ∧
            bs.getD i dummyBind =
              (localKey typeName (members.getD i dummyVar).name,
                PtrValue.alloca (members.getD i dummyVar).name ty) ∧
            Instr.allocaI (members.getD i dummyVar).name ty ∈ instrs) ∧
        (((members.getD i dummyVar).is_temp || (members.getD i dummyVar).is_return) = false →
          argIndex < f.paramTypes.length ∧
          bs.getD i dummyBind =
            (localKey typeName (members.getD i dummyVar).name,
              PtrValue.structGep argIndex (varCount + fieldIndexBefore members i)
                (members.getD i dummyVar).name
                ((llvmIndex.findAssociatedType
                  (members.getD i dummyVar).typeName).getD ⟨TypeKind.intTy, none⟩)) ∧
          Instr.gepI argIndex (varCount + fieldIndexBefore members i)
            (members.getD i dummyVar).name ∈ instrs)
  | [], varCount, bs, instrs, h => by
    cases h
    exact ⟨rfl, fun i hi => absurd hi (by simp)⟩
  | m :: rest, varCount, bs, instrs, h => by
    rw [genStructVarsGo] at h
    by_cases htr : (m.is_temp || m.is_return) = true
    · rw [if_pos htr] at h
      cases hty : llvmIndex.getAssociatedType m.typeName with
      | error e => rw [hty] at h; cases h
      | ok ty =>
        simp only [hty] at h
        cases hrec : genStructVarsGo llvmIndex argIndex typeName f rest varCount with
        | error e => rw [hrec] at h; cases h
        | ok pr =>
          obtain ⟨bs', instrs'⟩ := pr
          simp only [hrec] at h
          cases h
          obtain ⟨hlen, hspec⟩ :=
            genStructVarsGo_spec llvmIndex argIndex typeName f rest varCount bs' instrs' hrec
          refine ⟨by simp [hlen], ?_⟩
          intro i hi
          cases i with
          | zero =>
            refine ⟨?_, ?_⟩
            · intro _
              exact ⟨ty, by simpa using hty, by simp, by simp⟩
            · intro hn
              rw [List.getD_cons_zero, htr] at hn
              cases hn
          | succ j =>
            have hj : j < rest.length := by simpa using hi
            obtain ⟨A, B⟩ := hspec j hj
            refine ⟨?_, ?_⟩
            · intro ht
              simp only [List.getD_cons_succ] at ht ⊢
              obtain ⟨ty', h1, h2, h3⟩ := A ht
              exact ⟨ty', h1, h2, List.mem_cons_of_mem _ h3⟩
            · intro hn
              simp only [List.getD_cons_succ] at hn ⊢
              rw [fieldIndexBefore_cons, if_neg (by simp [htr]), Nat.zero_add]
              obtain ⟨h1, h2, h3⟩ := B hn
              exact ⟨h1, h2, List.mem_cons_of_mem _ h3⟩
    · rw [if_neg htr] at h
      have htrf : (m.is_temp || m.is_return) = false := by simpa using htr
      cases hnp : f.getNthParam argIndex with
      | none => rw [hnp] at h; cases h
      | some pv =>
        simp only [hnp] at h
        obtain ⟨hlt, _⟩ := getNthParam_eq f argIndex pv hnp
        cases hrec : genStructVarsGo llvmIndex argIndex typeName f rest (varCount + 1) with
        | error e => rw [hrec] at h; cases h
        | ok pr =>
          obtain ⟨bs', instrs'⟩ := pr
          simp only [hrec] at h
          cases h
          obtain ⟨hlen, hspec⟩ :=
            genStructVarsGo_spec llvmIndex argIndex typeName f rest (varCount + 1) bs' instrs'
              hrec
          refine ⟨by simp [hlen], ?_⟩
          intro i hi
          cases i with
          | zero =>
            refine ⟨?_, ?_⟩
            · intro ht
              rw [List.getD_cons_zero, htrf] at ht
              cases ht
            · intro _
              refine ⟨hlt, ?_, ?_⟩
              · rw [fieldIndexBefore_zero]
                simp
              · rw [fieldIndexBefore_zero]
                simp
          | succ j =>
            have hj : j < rest.length := by simpa using hi
            obtain ⟨A, B⟩ := hspec j hj
            refine ⟨?_, ?_⟩
            · intro ht
              simp only [List.getD_cons_succ] at ht ⊢
              obtain ⟨ty', h1, h2, h3⟩ := A ht
              exact ⟨ty', h1, h2, List.mem_cons_of_mem _ h3⟩
            · intro hn
              simp only [List.getD_cons_succ] at hn ⊢
              rw [fieldIndexBefore_cons, if_pos (by simpa using htrf)]
              have harith : varCount + (1 + fieldIndexBefore rest j) =
                  varCount + 1 + fieldIndexBefore rest j := by omega
              rw [harith]
              obtain ⟨h1, h2, h3⟩ := B hn
              exact ⟨h1, h2, List.mem_cons_of_mem _ h3⟩

/-! ## Claim theorems -/

/-- C2: during body generation, the members handed to the initialization
emitter are: for Function/Method kinds every Local/Temp/Return container
member (and never a parameter-kind member); for Program/FunctionBlock/
Action kinds exactly the Temp members, so persistent Local members are left
untouched by this phase. -/
theorem initialization_scope_by_pou_kind (pt : PouType)
    (members : List VariableIndexEntry) (v : VariableIndexEntry) :
    (v ∈ initEmitterSelection (membersForInitialization pt members) ↔
      v ∈ members ∧
        (match pt with
         | .function | .method => (v.is_local || v.is_temp || v.is_return) = true
         | _ => v.is_temp = true)) ∧
    (v.is_parameter = true →
      v ∉ initEmitterSelection (membersForInitialization pt members)) := by
  constructor
  · cases pt <;>
      simp [initEmitterSelection, membersForInitialization, List.mem_filter, and_assoc] <;>
      exact fun _ h => by simp [h]
  · intro hp hmem
    cases pt <;>
      simp only [initEmitterSelection, membersForInitialization, List.mem_filter] at hmem <;>
      simp [is_parameter_not_init_kind v hp] at hmem

/-- Witness for C2 at a concrete input: an Input-kind member of a Function
is not initialized. -/
theorem initialization_scope_by_pou_kind_witness :
    (⟨"a", "f.a", "INT", VariableType.input, none, SourceRange.undefined⟩ : VariableIndexEntry) ∉
      initEmitterSelection (membersForInitialization PouType.function
        [⟨"a", "f.a", "INT", VariableType.input, none, SourceRange.undefined⟩]) :=
  (initialization_scope_by_pou_kind PouType.function _ _).2 rfl

/-- C9: an implementation entry whose call name has no POU entry in the
symbol index contributes nothing to stub generation: removing it from the
implementation list leaves the result (including success or failure)
unchanged, so no declaration is created for it and no error is raised. -/
theorem stub_generation_skips_unknown_pou (idx : Index) (llvmIndex : LlvmTypedIndex)
    (l1 l2 : List (String × ImplementationIndexEntry)) (n : String)
    (impl : ImplementationIndexEntry)
    (hpou : idx.findPou impl.callName = none)
    (himpl : idx.implementations = l1 ++ (n, impl) :: l2) :
    generateImplementationStubs idx llvmIndex = goStubs idx llvmIndex (l1 ++ l2) := by
  have key : ∀ (l : List (String × ImplementationIndexEntry)),
      goStubs idx llvmIndex (l ++ (n, impl) :: l2) = goStubs idx llvmIndex (l ++ l2) := by
    intro l
    induction l with
    | nil => simp [goStubs, hpou]
    | cons hd tl ih =>
      obtain ⟨nm, im⟩ := hd
      cases hfp : idx.findPou im.callName <;> simp [goStubs, hfp, ih]
  rw [generateImplementationStubs, himpl]
  exact key l1

/-- Witness for C9 at a concrete input: a lone implementation entry with no
POU produces the same (empty, successful) result as the empty list. -/
theorem stub_generation_skips_unknown_pou_witness :
    generateImplementationStubs
        ⟨[("ghost", ⟨"ghost", "ghost", ImplementationType.program, none⟩)], [], [], [], []⟩
        ⟨[], [], [], []⟩ =
      goStubs ⟨[("ghost", ⟨"ghost", "ghost", ImplementationType.program, none⟩)], [], [], [], []⟩
        ⟨[], [], [], []⟩ ([] ++ []) :=
  stub_generation_skips_unknown_pou _ _ [] [] "ghost" _ rfl rfl

/-- C5: on success, stub generation records a declaration under the name of
exactly the implementation entries whose owning POU exists and is not
generic; in particular every non-generic entry's name is recorded, and (for
distinct entry names) no name owned by a generic POU ever is. -/
theorem stub_generation_covers_non_generic (idx : Index) (llvmIndex : LlvmTypedIndex)
    (out : List (String × FunctionDecl))
    (h : generateImplementationStubs idx llvmIndex = .ok out) :
    out.map Prod.fst =
        (idx.implementations.filter (fun p => stubCondition idx p.2)).map Prod.fst ∧
    (∀ n impl, (n, impl) ∈ idx.implementations → stubCondition idx impl = true →
      n ∈ out.map Prod.fst) ∧
    (∀ n impl pou, (n, impl) ∈ idx.implementations →
      idx.findPou impl.callName = some pou → pou.isGeneric = true →
      (idx.implementations.map Prod.fst).Nodup → n ∉ out.map Prod.fst) := by
  have hmain := goStubs_map_fst idx llvmIndex idx.implementations out h
  refine ⟨hmain, ?_, ?_⟩
  · intro n impl hmem hcond
    rw [hmain]
    exact List.mem_map_of_mem Prod.fst (List.mem_filter.mpr ⟨hmem, hcond⟩)
  · intro n impl pou hmem hfp hg hnd hn
    rw [hmain] at hn
    obtain ⟨⟨n', impl'⟩, hmem', hfst⟩ := List.mem_map.mp hn
    have hmem'' := List.mem_filter.mp hmem'
    simp only at hfst
    subst hfst
    have heq : impl' = impl :=
      keyed_mem_unique idx.implementations n' impl' impl hnd hmem''.1 hmem
    have hcond := hmem''.2
    rw [heq] at hcond
    simp [stubCondition, hfp, hg] at hcond

/-- Witness for C5 at a concrete input: a non-generic function gets a stub
recorded under its name; a generic one gets none. -/
theorem stub_generation_covers_non_generic_witness :
    "conc" ∈
      ([("conc", (⟨"conc", [], none, false⟩ : FunctionDecl))].map Prod.fst) ∧
    "gen" ∉
      ([("conc", (⟨"conc", [], none, false⟩ : FunctionDecl))].map Prod.fst) := by
  have h := stub_generation_covers_non_generic
    ⟨[("conc", ⟨"conc", "conc", ImplementationType.function, none⟩),
      ("gen", ⟨"gen", "gen", ImplementationType.function, none⟩)],
     [⟨"conc", false⟩, ⟨"gen", true⟩], [], [], []⟩
    ⟨[], [], [], []⟩
    [("conc", ⟨"conc", [], none, false⟩)] rfl
  exact ⟨h.2.1 "conc" ⟨"conc", "conc", ImplementationType.function, none⟩ (by simp) rfl,
    h.2.2 "gen" ⟨"gen", "gen", ImplementationType.function, none⟩ ⟨"gen", true⟩ (by simp)
      rfl rfl (by simp)⟩

/-- C6: when the owning type declares a return variable whose bound local
slot exists, the synthesizer emits exactly one load of that slot followed
by exactly one return of the loaded value; with no declared return variable
it emits exactly one void return; a declared return variable with an absent
binding is a fatal codegen error. -/
theorem return_synthesis (idx : Index) (fc : FunctionContext) (li : LlvmLocalIndex) :
    (∀ retV, idx.findReturnVariable fc.typeName = some retV →
      (∀ p, li.findLoadedAssociatedVariableValue retV.qualifiedName = some p →
        generateReturnStatement idx fc li =
          .ok [Instr.loadI p (fc.callName ++ "_ret"),
            Instr.retI (some (Value.loaded p (fc.callName ++ "_ret")))]) ∧
      (li.findLoadedAssociatedVariableValue retV.qualifiedName = none →
        generateReturnStatement idx fc li =
          .error (.codegenError ("Cannot generate return variable for " ++ fc.callName)
            SourceRange.undefined))) ∧
    (idx.findReturnVariable fc.typeName = none →
      generateReturnStatement idx fc li = .ok [Instr.retI none]) := by
  constructor
  · intro retV hret
    constructor
    · intro p hp
      simp [generateReturnStatement, hret, hp]
    · intro hp
      simp [generateReturnStatement, hret, hp]
  · intro hret
    simp [generateReturnStatement, hret]

/-- Witness for C6 at a concrete input: a function "foo" with a bound
return slot yields one load and one return-with-value. -/
theorem return_synthesis_witness :
    generateReturnStatement
        ⟨[], [], [("foo", [⟨"foo", "foo.foo", "INT", VariableType.ret, none,
          SourceRange.undefined⟩])], [], []⟩
        ⟨"foo", "foo"⟩
        ⟨[("foo.foo", PtrValue.alloca "foo" ⟨TypeKind.intTy, some 2⟩)]⟩ =
      .ok [Instr.loadI (PtrValue.alloca "foo" ⟨TypeKind.intTy, some 2⟩) "foo_ret",
        Instr.retI (some (Value.loaded (PtrValue.alloca "foo" ⟨TypeKind.intTy, some 2⟩)
          "foo_ret"))] :=
  ((return_synthesis
      ⟨[], [], [("foo", [⟨"foo", "foo.foo", "INT", VariableType.ret, none,
        SourceRange.undefined⟩])], [], []⟩
      ⟨"foo", "foo"⟩
      ⟨[("foo.foo", PtrValue.alloca "foo" ⟨TypeKind.intTy, some 2⟩)]⟩).1
    ⟨"foo", "foo.foo", "INT", VariableType.ret, none, SourceRange.undefined⟩ rfl).1
    (PtrValue.alloca "foo" ⟨TypeKind.intTy, some 2⟩) rfl

/-- C8: the hoister considers exactly the container members that are local
or temp and whose effective type is struct, array or string; a considered
variable whose initial-value reference cannot be resolved to a constant
statement fails with "cannot generate initializer" carrying its qualified
name and source location; a considered variable with no initial value is
skipped without error and creates nothing. -/
theorem hoister_selection_and_errors (idx : Index) (llvmIndex : LlvmTypedIndex)
    (expGen : Statement → Except Diagnostic Value) :
    (∀ typeName v, v ∈ hoistCandidates idx typeName ↔
      (v ∈ idx.getContainerMembers typeName ∧ (v.is_local || v.is_temp) = true ∧
        ((idx.getEffectiveTypeInformation v.typeName).is_struct ||
          (idx.getEffectiveTypeInformation v.typeName).is_array ||
          (idx.getEffectiveTypeInformation v.typeName).is_string) = true)) ∧
    (∀ v c, v.initialValue = some c →
      idx.maybeGetConstantStatement v.initialValue = none →
      hoistVariable idx llvmIndex expGen v =
        .error (.cannotGenerateInitializer v.qualifiedName v.sourceLocation)) ∧
    (∀ v, v.initialValue = none → hoistVariable idx llvmIndex expGen v = .ok []) := by
  refine ⟨?_, ?_, ?_⟩
  · intro typeName v
    simp only [hoistCandidates, List.mem_filter, and_assoc, Bool.or_eq_true]
  · intro v c hc hmg
    rw [hc] at hmg
    simp [hoistVariable, rightStatement, hc, hmg]
  · intro v hv
    simp [hoistVariable, rightStatement, hv]

/-- Witness for C8 at concrete inputs: an unresolvable initial value fails
with the variable's qualified name and location. -/
theorem hoister_selection_and_errors_witness :
    hoistVariable ⟨[], [], [], [], []⟩ ⟨[], [], [], []⟩ (fun s => .ok (.exprResult s))
        ⟨"y", "p.y", "S", VariableType.temp, some 9, SourceRange.range 1 2⟩ =
      .error (.cannotGenerateInitializer "p.y" (SourceRange.range 1 2)) :=
  (hoister_selection_and_errors ⟨[], [], [], [], []⟩ ⟨[], [], [], []⟩
      (fun s => .ok (.exprResult s))).2.1
    ⟨"y", "p.y", "S", VariableType.temp, some 9, SourceRange.range 1 2⟩ 9 rfl rfl

/-- A local struct-typed member of program "prg" with a constant-foldable
initial value, used to exhibit duplicate hoisting within one run. -/
def dupVar : VariableIndexEntry :=
  ⟨"x", "prg.x", "MyStruct", VariableType.localVar, some 1, SourceRange.range 5 9⟩

/-- An index containing a program "prg" and its action "prg.act", both
owning the container "prg" — two implementation entries with the same
owning type name, as arise for a program with an action. -/
def dupIdx : Index :=
  ⟨[("prg", ⟨"prg", "prg", ImplementationType.program, none⟩),
    ("prg.act", ⟨"prg.act", "prg", ImplementationType.action, none⟩)],
   [⟨"prg", false⟩, ⟨"prg.act", false⟩],
   [("prg", [dupVar])],
   [(1, ⟨10⟩)],
   [("MyStruct", ⟨true, false, false, false⟩)]⟩

/-- An input typed index with no global under the derived initializer name
but with an associated type for the member's type. -/
def dupLlvm : LlvmTypedIndex :=
  ⟨[], [("MyStruct", ⟨TypeKind.structTy, some 8⟩)], [], []⟩

/-- A context-free expression generator that evaluates every statement. -/
def dupExpGen : Statement → Except Diagnostic Value :=
  fun s => .ok (.exprResult s)

/-- C7 counterexample: one run of the hoister over a program and its
action (same owning type name) creates two globals under the same derived
initializer name — the second hoist is not a no-op, because the
pre-creation lookup consults only the input index, which never contains
the first hoist's in-run creation. -/
theorem hoist_not_idempotent_within_run :
    Except.map (fun l => (l.map Prod.fst).count "prg.x__init")
        (generateGlobalConstantsForPouMembers dupIdx dupLlvm dupExpGen) = .ok 2 ∧
      (2 : Nat) ≠ 1 :=
  ⟨by rfl, by decide⟩

/-- C7 amended: a hoist is a no-op exactly when a global under the derived
name already exists in the *input* typed index (as after merging a
previous run); when the name is absent there, a hoist of a resolvable
initial value always creates a global — so two hoists of the same name
within one run each create one, while re-running over the merged result
creates none. -/
theorem hoist_noop_iff_name_in_input_index (idx : Index) (llvmIndex : LlvmTypedIndex)
    (expGen : Statement → Except Diagnostic Value) (v : VariableIndexEntry) :
    (∀ g rs, llvmIndex.findGlobalValue (get_initializer_name v.qualifiedName) = some g →
      rightStatement idx v = .ok rs →
      hoistVariable idx llvmIndex expGen v = .ok []) ∧
    (∀ stmt value ty,
      llvmIndex.findGlobalValue (get_initializer_name v.qualifiedName) = none →
      rightStatement idx v = .ok (some stmt) →
      hoistValue llvmIndex expGen v stmt = .ok value →
      llvmIndex.getAssociatedType v.typeName = .ok ty →
      hoistVariable idx llvmIndex expGen v =
        .ok [(get_initializer_name v.qualifiedName,
          mkConstGlobal (get_initializer_name v.qualifiedName) ty value)]) := by
  constructor
  · intro g rs hg hrs
    cases rs <;> simp [hoistVariable, hrs, hg]
  · intro stmt value ty hg hrs hval hty
    simp [hoistVariable, hrs, hg, hval, hty]

/-- Witness for the amended C7 at a concrete input: with the derived name
already present in the input index, the hoist creates nothing. -/
theorem hoist_noop_iff_name_in_input_index_witness :
    hoistVariable dupIdx
        ⟨[("prg.x__init", ⟨"prg.x__init", 0, none, none, true⟩)],
          [("MyStruct", ⟨TypeKind.structTy, some 8⟩)], [], []⟩
        dupExpGen dupVar = .ok [] :=
  (hoist_noop_iff_name_in_input_index dupIdx
      ⟨[("prg.x__init", ⟨"prg.x__init", 0, none, none, true⟩)],
        [("MyStruct", ⟨TypeKind.structTy, some 8⟩)], [], []⟩
      dupExpGen dupVar).1
    ⟨"prg.x__init", 0, none, none, true⟩ (some ⟨10⟩) rfl rfl

/-- C1: for a Local/Temp/Return member with a resolvable local binding the
emitter chooses exactly one of the four strategies in priority order:
memcpy from the hoisted global (under the variable's derived name or else
its type's) with the type's byte size and alignment max 1 of the global's
reported alignment; else zero-fill when the slot's pointee is an array
type; else store the evaluated constant initializer; else store the type's
canonical default. -/
theorem init_strategy_priority (idx : Index) (llvmIndex : LlvmTypedIndex)
    (expGen : Statement → Except Diagnostic Value) (li : LlvmLocalIndex)
    (v : VariableIndexEntry) (slot : PtrValue)
    (hkind : (v.is_local || v.is_temp || v.is_return) = true)
    (hbind : li.findLoadedAssociatedVariableValue v.qualifiedName = some slot) :
    generateInitializationOfLocalVars idx llvmIndex expGen li [v] =
        initializeVariable idx llvmIndex expGen li v ∧
    ∀ rs, rightStatement idx v = .ok rs →
      ((∀ g s, hoistedGlobalFor llvmIndex v = some g → typeSizeOf llvmIndex v = some s →
        initializeVariable idx llvmIndex expGen li v =
          .ok [Instr.memcpyI slot (max 1 g.alignment) g.name (max 1 g.alignment) s]) ∧
      (∀ s, hoistedGlobalFor llvmIndex v = none →
        slot.elementType.kind = TypeKind.arrayTy → typeSizeOf llvmIndex v = some s →
        initializeVariable idx llvmIndex expGen li v = .ok [Instr.memsetI slot 1 0 s]) ∧
      (∀ stmt value, hoistedGlobalFor llvmIndex v = none →
        slot.elementType.kind ≠ TypeKind.arrayTy → rs = some stmt →
        expGen stmt = .ok value →
        initializeVariable idx llvmIndex expGen li v = .ok [Instr.storeI slot value]) ∧
      (∀ ty, hoistedGlobalFor llvmIndex v = none →
        slot.elementType.kind ≠ TypeKind.arrayTy → rs = none →
        llvmIndex.findAssociatedType v.typeName = some ty →
        initializeVariable idx llvmIndex expGen li v =
          .ok [Instr.storeI slot (Value.defaultFor ty)])) := by
  constructor
  · cases h : initializeVariable idx llvmIndex expGen li v <;>
      simp [generateInitializationOfLocalVars, initEmitterSelection, List.filter, hkind,
        goInitVars, h]
  · intro rs hrs
    refine ⟨?_, ?_, ?_, ?_⟩
    · intro g s hg hs
      simp [initializeVariable, hbind, hrs, hg, hs]
    · intro s hg harr hs
      simp [initializeVariable, hbind, hrs, hg, harr, hs]
    · intro stmt value hg harr hstmt hval
      subst hstmt
      simp [initializeVariable, hbind, hrs, hg, harr, storeSourceValue, hval]
    · intro ty hg harr hnone hty
      subst hnone
      simp [initializeVariable, hbind, hrs, hg, harr, storeSourceValue, hty]

/-- Witness for C1 at a concrete input: a local struct member with a
hoisted global is initialized with a single memcpy of the type's byte
size at alignment 1. -/
theorem init_strategy_priority_witness :
    initializeVariable ⟨[], [], [], [(1, ⟨7⟩)], []⟩
        ⟨[("fn.x__init", ⟨"fn.x__init", 0, none, none, true⟩)],
          [("S", ⟨TypeKind.structTy, some 8⟩)], [], []⟩
        (fun s => .ok (.exprResult s))
        ⟨[("fn.x", PtrValue.alloca "x" ⟨TypeKind.structTy, some 8⟩)]⟩
        ⟨"x", "fn.x", "S", VariableType.localVar, some 1, SourceRange.range 0 1⟩ =
      .ok [Instr.memcpyI (PtrValue.alloca "x" ⟨TypeKind.structTy, some 8⟩) 1 "fn.x__init"
        1 8] :=
  ((init_strategy_priority ⟨[], [], [], [(1, ⟨7⟩)], []⟩
      ⟨[("fn.x__init", ⟨"fn.x__init", 0, none, none, true⟩)],
        [("S", ⟨TypeKind.structTy, some 8⟩)], [], []⟩
      (fun s => .ok (.exprResult s))
      ⟨[("fn.x", PtrValue.alloca "x" ⟨TypeKind.structTy, some 8⟩)]⟩
      ⟨"x", "fn.x", "S", VariableType.localVar, some 1, SourceRange.range 0 1⟩
      (PtrValue.alloca "x" ⟨TypeKind.structTy, some 8⟩) rfl rfl).2 (some ⟨7⟩) rfl).1
    ⟨"fn.x__init", 0, none, none, true⟩ 8 rfl rfl

/-- C10: an undeterminable type byte size is an error only on the
bulk-copy and zero-fill paths: with an associated type whose size is
unknown, the memcpy and memset branches fail with the size error, while
the explicit-initializer and type-default store branches still succeed. -/
theorem size_error_only_on_bulk_paths (idx : Index) (llvmIndex : LlvmTypedIndex)
    (expGen : Statement → Except Diagnostic Value) (li : LlvmLocalIndex)
    (v : VariableIndexEntry) (slot : PtrValue) (ty : AssociatedType)
    (rs : Option Statement)
    (hty : llvmIndex.findAssociatedType v.typeName = some ty)
    (hsz : ty.sizeOf = none)
    (hbind : li.findLoadedAssociatedVariableValue v.qualifiedName = some slot)
    (hrs : rightStatement idx v = .ok rs) :
    (∀ g, hoistedGlobalFor llvmIndex v = some g →
      initializeVariable idx llvmIndex expGen li v =
        .error (.codegenError "Could not determine type size" v.sourceLocation)) ∧
    (hoistedGlobalFor llvmIndex v = none → slot.elementType.kind = TypeKind.arrayTy →
      initializeVariable idx llvmIndex expGen li v =
        .error (.codegenError "Could not determine type size" v.sourceLocation)) ∧
    (∀ stmt value, hoistedGlobalFor llvmIndex v = none →
      slot.elementType.kind ≠ TypeKind.arrayTy → rs = some stmt →
      expGen stmt = .ok value →
      initializeVariable idx llvmIndex expGen li v = .ok [Instr.storeI slot value]) ∧
    (hoistedGlobalFor llvmIndex v = none → slot.elementType.kind ≠ TypeKind.arrayTy →
      rs = none →
      initializeVariable idx llvmIndex expGen li v =
        .ok [Instr.storeI slot (Value.defaultFor ty)]) := by
  have hsize : typeSizeOf llvmIndex v = none := by
    simp [typeSizeOf, hty, hsz]
  refine ⟨?_, ?_, ?_, ?_⟩
  · intro g hg
    simp [initializeVariable, hbind, hrs, hg, hsize]
  · intro hg harr
    simp [initializeVariable, hbind, hrs, hg, harr, hsize]
  · intro stmt value hg harr hstmt hval
    subst hstmt
    simp [initializeVariable, hbind, hrs, hg, harr, storeSourceValue, hval]
  · intro hg harr hnone
    subst hnone
    simp [initializeVariable, hbind, hrs, hg, harr, storeSourceValue, hty]

/-- Witness for C10 at a concrete input: a variable whose associated type
has no determinable size is still initialized by a default-value store. -/
theorem size_error_only_on_bulk_paths_witness :
    initializeVariable ⟨[], [], [], [], []⟩
        ⟨[], [("U", ⟨TypeKind.structTy, none⟩)], [], []⟩
        (fun s => .ok (.exprResult s))
        ⟨[("fn.u", PtrValue.alloca "u" ⟨TypeKind.structTy, none⟩)]⟩
        ⟨"u", "fn.u", "U", VariableType.localVar, none, SourceRange.range 2 3⟩ =
      .ok [Instr.storeI (PtrValue.alloca "u" ⟨TypeKind.structTy, none⟩)
        (Value.defaultFor ⟨TypeKind.structTy, none⟩)] :=
  (size_error_only_on_bulk_paths ⟨[], [], [], [], []⟩
      ⟨[], [("U", ⟨TypeKind.structTy, none⟩)], [], []⟩
      (fun s => .ok (.exprResult s))
      ⟨[("fn.u", PtrValue.alloca "u" ⟨TypeKind.structTy, none⟩)]⟩
      ⟨"u", "fn.u", "U", VariableType.localVar, none, SourceRange.range 2 3⟩
      (PtrValue.alloca "u" ⟨TypeKind.structTy, none⟩)
      ⟨TypeKind.structTy, none⟩ none rfl rfl rfl rfl).2.2.2 rfl (by decide) rfl

/-- C3: the parameter list of an implementation is determined by its kind:
Function kind gets one target-typed by-value parameter per parameter-kind
member in declaration order; Method kind gets exactly two pointer
parameters, the first to the enclosing class's instance struct and the
second to the method's own instance struct; every other kind gets exactly
one pointer parameter to the callable's instance struct. -/
theorem parameters_by_kind (idx : Index) (llvmIndex : LlvmTypedIndex)
    (impl : ImplementationIndexEntry) (ps : List ParamType)
    (h : createParametersForImplementation idx llvmIndex impl = .ok ps) :
    (impl.implementationType = ImplementationType.function →
      ps.length =
        ((idx.getContainerMembers impl.callName).filter (fun v => v.is_parameter)).length ∧
      ∀ i, i < ((idx.getContainerMembers impl.callName).filter
          (fun v => v.is_parameter)).length →
        ∃ ty, llvmIndex.getAssociatedType
            (((idx.getContainerMembers impl.callName).filter
              (fun v => v.is_parameter)).getD i dummyVar).typeName = .ok ty ∧
          ps.getD i dummyParam = ParamType.byValue ty) ∧
    (impl.implementationType = ImplementationType.method →
      ∃ className, impl.associatedClassName = some className ∧
        ps = [ParamType.pointerTo className, ParamType.pointerTo impl.typeName]) ∧
    (impl.implementationType ≠ ImplementationType.function →
      impl.implementationType ≠ ImplementationType.method →
      ps = [ParamType.pointerTo impl.typeName]) := by
  refine ⟨?_, ?_, ?_⟩
  · intro hfn
    rw [createParametersForImplementation, if_neg (by simp [hfn])] at h
    exact collectParameterTypes_spec llvmIndex _ ps h
  · intro hm
    rw [createParametersForImplementation, if_pos (by simp [hm])] at h
    rw [methodClassParams, if_pos hm] at h
    cases hacn : impl.associatedClassName with
    | none => rw [hacn] at h; cases h
    | some className =>
      simp only [hacn] at h
      cases hct : llvmIndex.getAssociatedType className with
      | error e => rw [hct] at h; cases h
      | ok classType =>
        simp only [hct] at h
        by_cases hk : classType.kind = TypeKind.structTy
        · rw [if_pos hk] at h
          cases hpt : llvmIndex.getAssociatedPouType impl.typeName with
          | error e => rw [hpt] at h; cases h
          | ok pouType =>
            simp only [hpt] at h
            by_cases hk2 : pouType.kind = TypeKind.structTy
            · rw [if_pos hk2] at h
              cases h
              exact ⟨className, rfl, rfl⟩
            · rw [if_neg hk2] at h; cases h
        · rw [if_neg hk] at h; cases h
  · intro hnf hnm
    rw [createParametersForImplementation, if_pos hnf] at h
    rw [methodClassParams, if_neg hnm] at h
    cases hpt : llvmIndex.getAssociatedPouType impl.typeName with
    | error e => rw [hpt] at h; cases h
    | ok pouType =>
      simp only [hpt] at h
      by_cases hk2 : pouType.kind = TypeKind.structTy
      · rw [if_pos hk2] at h
        cases h
        rfl
      · rw [if_neg hk2] at h; cases h

/-- C4: local binding obeys the two variant contracts: in the Function
variant the Return-kind member is bound to a freshly allocated slot
recorded under the derived return-name convention, each parameter-kind
member is bound by storing the incoming argument — read at a positional
index that advances only on parameter-kind members — into a fresh slot,
and every other member gets a fresh slot; in the struct-instance variant
Temp and Return members get fresh local slots while every other member is
bound to a field address computed into the instance-struct pointer
parameter at `argIndex`, with a struct-field index that increments only
for non-Temp/non-Return members. -/
theorem local_binding_variants (llvmIndex : LlvmTypedIndex) (typeName : String)
    (f : FunctionDecl) :
    (∀ members bs instrs,
      generateLocalFunctionArgumentsAccessors llvmIndex typeName f members =
        .ok (bs, instrs) →
      bs.length = members.length ∧
      ∀ i, i < members.length →
        ((members.getD i dummyVar).is_return = true →
          ∃ ty, llvmIndex.getAssociatedType (members.getD i dummyVar).typeName = .ok ty ∧
            bs.getD i dummyBind =
              (localKey typeName (Pou.calcReturnName typeName),
                PtrValue.alloca typeName ty) ∧
            Instr.allocaI typeName ty ∈ instrs) ∧
        ((members.getD i dummyVar).is_parameter = true →
          ∃ ty, llvmIndex.getAssociatedType (members.getD i dummyVar).typeName = .ok ty ∧
            bs.getD i dummyBind =
              (localKey typeName (members.getD i dummyVar).name,
                PtrValue.alloca (members.getD i dummyVar).name ty) ∧
            paramCountBefore members i < f.paramTypes.length ∧
            Instr.storeI (PtrValue.alloca (members.getD i dummyVar).name ty)
              (Value.param (paramCountBefore members i)) ∈ instrs) ∧
        ((members.getD i dummyVar).is_return = false →
          (members.getD i dummyVar).is_parameter = false →
          ∃ ty, llvmIndex.getAssociatedType (members.getD i dummyVar).typeName = .ok ty ∧
            bs.getD i dummyBind =
              (localKey typeName (members.getD i dummyVar).name,
                PtrValue.alloca (members.getD i dummyVar).name ty) ∧
            Instr.allocaI (members.getD i dummyVar).name ty ∈ instrs)) ∧
    (∀ argIndex members bs instrs,
      generateLocalStructVariableAccessors llvmIndex argIndex typeName f members =
        .ok (bs, instrs) →
      bs.length = members.length ∧
      ∀ i, i < members.length →
        (((members.getD i dummyVar).is_temp || (members.getD i dummyVar).is_return) =
            true →
          ∃ ty, llvmIndex.getAssociatedType (members.getD i dummyVar).typeName = .ok ty ∧
            bs.getD i dummyBind =
              (localKey typeName (members.getD i dummyVar).name,
                PtrValue.alloca (members.getD i dummyVar).name ty) ∧
            Instr.allocaI (members.getD i dummyVar).name ty ∈ instrs) ∧
        (((members.getD i dummyVar).is_temp || (members.getD i dummyVar).is_return) =
            false →
          argIndex < f.paramTypes.length ∧
          bs.getD i dummyBind =
            (localKey typeName (members.getD i dummyVar).name,
              PtrValue.structGep argIndex (fieldIndexBefore members i)
                (members.getD i dummyVar).name
                ((llvmIndex.findAssociatedType
                  (members.getD i dummyVar).typeName).getD ⟨TypeKind.intTy, none⟩)) ∧
          Instr.gepI argIndex (fieldIndexBefore members i)
            (members.getD i dummyVar).name ∈ instrs)) := by
  constructor
  · intro members bs instrs h
    obtain ⟨hlen, hspec⟩ := genFunArgsGo_spec llvmIndex typeName f members 0 bs instrs h
    refine ⟨hlen, ?_⟩
    intro i hi
    obtain ⟨A, B, C⟩ := hspec i hi
    refine ⟨A, ?_, C⟩
    intro hp
    obtain ⟨ty, h1, h2, h3, h4⟩ := B hp
    exact ⟨ty, h1, h2, by simpa using h3, by simpa using h4⟩
  · intro argIndex members bs instrs h
    obtain ⟨hlen, hspec⟩ :=
      genStructVarsGo_spec llvmIndex argIndex typeName f members 0 bs instrs h
    refine ⟨hlen, ?_⟩
    intro i hi
    obtain ⟨A, B⟩ := hspec i hi
    refine ⟨A, ?_⟩
    intro hn
    obtain ⟨h1, h2, h3⟩ := B hn
    exact ⟨h1, by simpa using h2, by simpa using h3⟩

/-- Witness for C4 at a concrete input: a function with one Input member
and one Return member binds exactly two local slots, one per member. -/
theorem local_binding_variants_witness :
    ([("foo.a", PtrValue.alloca "a" ⟨TypeKind.intTy, some 2⟩),
      ("foo.foo_ret", PtrValue.alloca "foo" ⟨TypeKind.intTy, some 2⟩)] :
        List (String × PtrValue)).length =
      ([⟨"a", "foo.a", "INT", VariableType.input, none, SourceRange.undefined⟩,
        ⟨"r", "foo.r", "INT", VariableType.ret, none, SourceRange.undefined⟩] :
          List VariableIndexEntry).length :=
  ((local_binding_variants ⟨[], [("INT", ⟨TypeKind.intTy, some 2⟩)], [], []⟩ "foo"
      ⟨"foo", [ParamType.byValue ⟨TypeKind.intTy, some 2⟩], some ⟨TypeKind.intTy, some 2⟩,
        false⟩).1
    [⟨"a", "foo.a", "INT", VariableType.input, none, SourceRange.undefined⟩,
     ⟨"r", "foo.r", "INT", VariableType.ret, none, SourceRange.undefined⟩]
    [("foo.a", PtrValue.alloca "a" ⟨TypeKind.intTy, some 2⟩),
     ("foo.foo_ret", PtrValue.alloca "foo" ⟨TypeKind.intTy, some 2⟩)]
    [Instr.allocaI "a" ⟨TypeKind.intTy, some 2⟩,
     Instr.storeI (PtrValue.alloca "a" ⟨TypeKind.intTy, some 2⟩) (Value.param 0),
     Instr.allocaI "foo" ⟨TypeKind.intTy, some 2⟩] rfl).1

/-- Witness for C3 at a concrete input: a Method gets exactly the class
pointer followed by its own instance-struct pointer. -/
theorem parameters_by_kind_witness :
    ∃ className,
      (some "Cls" : Option String) = some className ∧
        ([ParamType.pointerTo "Cls", ParamType.pointerTo "Cls.m"] : List ParamType) =
          [ParamType.pointerTo className, ParamType.pointerTo "Cls.m"] :=
  (parameters_by_kind ⟨[], [], [], [], []⟩
      ⟨[], [("Cls", ⟨TypeKind.structTy, some 8⟩)], [("Cls.m", ⟨TypeKind.structTy, some 4⟩)], []⟩
      ⟨"Cls.m", "Cls.m", ImplementationType.method, some "Cls"⟩
      [ParamType.pointerTo "Cls", ParamType.pointerTo "Cls.m"] rfl).2.1 rfl

end PouGen
